import Mathlib

/-!
Verification of the claude-dashboard aggregation scripts.

Shallow embedding of the three scripts of the repository:
the comprehensive stats generator (src/unnamed/part_000), the sanitized
data generator (src/generate-data.js) and the HTTP server (src/server.js).
Machine-checked statements about the embedded definitions follow the
definitions.  JavaScript values are modelled as follows: strings are Lean
strings, JSON values are an inductive type, optional / possibly absent
fields are Option, JS object maps are association lists in insertion
order, and the truthiness tests of the source are made explicit.
-/

namespace ClaudeDash

/-! ## JS string primitives -/

/-- Helper for substring search on character lists: does `s` start with `pat`? -/
def startsWithL : List Char → List Char → Bool
  | [], _ => true
  | _ :: _, [] => false
  | p :: ps, c :: cs => p == c && startsWithL ps cs

/-- Does the character list `s` contain `pat` as a contiguous run? -/
def containsL (pat : List Char) : List Char → Bool
  | [] => startsWithL pat []
  | c :: cs => startsWithL pat (c :: cs) || containsL pat cs

/-- Model of `String.prototype.includes(pat)` from JS (case sensitive). -/
def jsIncludes (s pat : String) : Bool :=
  containsL pat.data s.data

/-- Model of `s.slice(0, n)` from JS for a nonnegative count `n`. -/
def strTake (s : String) (n : Nat) : String :=
  ⟨s.data.take n⟩

/-- Truthiness of an optional JS string field: absent and `""` are falsy. -/
def strTruthy : Option String → Bool
  | none => false
  | some s => !s.isEmpty

/-! ## JSON values -/

/-- JSON values, as produced by `JSON.parse` on one line of a `.jsonl` file.
Numbers are modelled as integers, which covers every numeric literal the
claims need. -/
inductive Json : Type where
  | null : Json
  | bool (b : Bool) : Json
  | num (n : Int) : Json
  | str (s : String) : Json
  | arr (xs : List Json) : Json
  | obj (kvs : List (String × Json)) : Json

/-- JS truthiness of a JSON value: `null`, `false`, `0` and `""` are falsy,
every array and object is truthy. -/
def Json.truthy : Json → Bool
  | .null => false
  | .bool b => b
  | .num n => !(n == 0)
  | .str s => !s.isEmpty
  | .arr _ => true
  | .obj _ => true

/-! ## Line-delimited parsers

A text line of an input file is modelled by its two observable properties:
whether `line.trim()` is non-empty, and the outcome of `JSON.parse(line)`
(`none` models a thrown exception).  A whole file is `Option (List RawLine)`,
where `none` models `fs.readFileSync` throwing. -/

/-- One physical line of a `.jsonl` file, abstracted to the two observations
the parsers make of it. -/
structure RawLine where
  nonBlank : Bool
  parsed : Option Json

/-- Embedding of `parseJsonl` from the comprehensive generator
(src/unnamed/part_000 lines 36-49): push the parse result of every
non-blank line that parses, skip the rest; an unreadable file gives `[]`. -/
def parseJsonl : Option (List RawLine) → List Json
  | none => []
  | some ls =>
    ls.foldl
      (fun acc l =>
        if l.nonBlank then
          match l.parsed with
          | some v => acc ++ [v]
          | none => acc
        else acc)
      []

/-- Embedding of `parseJSONL` from the server and the sanitized generator
(src/server.js lines 19-26, src/generate-data.js lines 15-22):
`content.split` then `.filter(line => line.trim())` then
`.map(line => { try JSON.parse catch return null })` then `.filter(Boolean)`.
A parse failure yields the JS value `null`, which the final truthiness
filter removes — together with every successfully parsed falsy value. -/
def parseJSONL : Option (List RawLine) → List Json
  | none => []
  | some ls =>
    ((ls.filter (fun l => l.nonBlank)).map
      (fun l => l.parsed.getD Json.null)).filter Json.truthy

/-- Modelled from the claim wording, for comparison with the two parsers:
the JSON values of exactly the non-blank lines that parse successfully,
in file order; `[]` for an unreadable file. -/
def specLineParse : Option (List RawLine) → List Json
  | none => []
  | some ls => (ls.filter (fun l => l.nonBlank)).filterMap (fun l => l.parsed)

/-! ## Session records

One parsed line of a session file, restricted to the fields the scripts
read: `timestamp`, `type`, `gitBranch`, `message.model`, `message.content`.
A JS `Date` built from a timestamp is abstracted to its epoch time in
milliseconds together with the local hour of day, local day of week and
ISO date string the scripts observe through `getHours`, `getDay` and
`toISOString`. -/

/-- Observations of `new Date(line.timestamp)` for a timestamp that the
scripts can process. -/
structure JSDate where
  time : Int
  hour : Fin 24
  weekday : Fin 7
  dateStr : String
deriving DecidableEq

/-- One content block of an assistant message; the scripts read only the
`type` and `name` fields of a block. -/
structure ContentBlock where
  btype : Option String
  name : Option String
deriving DecidableEq

/-- The `message.content` field: a string, an array of blocks, or some
other (truthy) JSON value. -/
inductive MessageContent : Type where
  | str (s : String) : MessageContent
  | arr (blocks : List ContentBlock) : MessageContent
  | other : MessageContent
deriving DecidableEq

/-- The `message` field of a record. -/
structure Message where
  model : Option String
  content : Option MessageContent
deriving DecidableEq

/-- One well-formed record (one parsed line) of a session file.  Fields the
scripts compare against string literals are modelled as optional strings;
`none` models an absent field. -/
structure Record where
  timestamp : Option JSDate
  rtype : Option String
  gitBranch : Option String
  message : Option Message
deriving DecidableEq

/-- `line.message?.model` of a record. -/
def Record.modelField (r : Record) : Option String :=
  r.message.bind (fun m => m.model)

/-- `line.type === 'user' || line.type === 'assistant'`, the message-count
test shared by all three scripts. -/
def isUA (r : Record) : Bool :=
  r.rtype == some "user" || r.rtype == some "assistant"

/-! ## JS object maps as association lists -/

/-- Model of `obj[k] = (obj[k] || 0) + 1` on a JS object used as a counter
map: bump the entry of `k`, appending a fresh entry (in insertion order)
when `k` is absent. -/
def bump (m : List (String × Nat)) (k : String) : List (String × Nat) :=
  match m with
  | [] => [(k, 1)]
  | (k', v) :: rest =>
    if k' = k then (k', v + 1) :: rest else (k', v) :: bump rest k

/-- Sum of all counter values of a JS counter object. -/
def mapSum (m : List (String × Nat)) : Nat :=
  (m.map (fun p => p.2)).sum

/-- Per-model usage entry of `data.modelUsage` in the comprehensive
generator. -/
structure MU where
  inputTokens : Nat
  outputTokens : Nat
  cacheRead : Nat
  cacheWrite : Nat
  sessions : Nat
deriving DecidableEq

/-- Model of the source pattern `if (!data.modelUsage[k]) data.modelUsage[k]
= { ...zeros, sessions: 0 }; data.modelUsage[k].sessions++`. -/
def bumpSessions (m : List (String × MU)) (k : String) : List (String × MU) :=
  match m with
  | [] => [(k, ⟨0, 0, 0, 0, 1⟩)]
  | (k', u) :: rest =>
    if k' = k then (k', { u with sessions := u.sessions + 1 }) :: rest
    else (k', u) :: bumpSessions rest k

/-- The `sessions` counter recorded for display name `k` (0 when absent). -/
def sessionsOf (m : List (String × MU)) (k : String) : Nat :=
  ((m.lookup k).map (fun u => u.sessions)).getD 0

/-- Model-identifier classification of the comprehensive generator
(src/unnamed/part_000 lines 310-312): substring match for "opus", then
"sonnet", otherwise the identifier itself. -/
def classify (model : String) : String :=
  if jsIncludes model "opus" then "Claude Opus 4.5"
  else if jsIncludes model "sonnet" then "Claude Sonnet 4.5"
  else model

/-! ## Aggregation state of the comprehensive generator -/

/-- The global mutable state the comprehensive generator threads through
`processSession`: the time-bucket arrays and maps of `data`, plus the
script-level `toolCounts` / `branchCounts` objects and the
`allSessionDates` set (modelled as a duplicate-free list in insertion
order). -/
structure GState where
  hourlyActivity : Fin 24 → Nat
  weekdayActivity : Fin 7 → Nat
  datesSeen : List String
  lastActivity : Option Int
  modelUsage : List (String × MU)
  toolCounts : List (String × Nat)
  branchCounts : List (String × Nat)

/-- The per-session local variables of `processSession`. -/
structure SessionAcc where
  sessionMessages : Nat
  sessionToolCalls : Nat
  sessionStart : Option Int
  sessionEnd : Option Int
  branch : Option String
deriving DecidableEq

/-- Initial per-session accumulator (the local `let` bindings at the top of
`processSession`). -/
def initAcc : SessionAcc := ⟨0, 0, none, none, none⟩

/-- The initial global state: `Array(24).fill(0)`, `Array(7).fill(0)`,
empty maps and sets (src/unnamed/part_000 lines 68-115 and 200-204). -/
def initGState : GState :=
  { hourlyActivity := fun _ => 0
    weekdayActivity := fun _ => 0
    datesSeen := []
    lastActivity := none
    modelUsage := []
    toolCounts := []
    branchCounts := [] }

/-- Increment one bucket of a fixed-size activity array. -/
def bumpFin {n : Nat} (b : Fin n → Nat) (i : Fin n) : Fin n → Nat :=
  Function.update b i (b i + 1)

/-- `allSessionDates.add(d)`: a set add, keeping insertion order. -/
def addDate (l : List String) (d : String) : List String :=
  if d ∈ l then l else l ++ [d]

/-- `if (!lo || t < lo) lo = t` on an optional epoch time. -/
def minOpt (lo : Option Int) (t : Int) : Option Int :=
  match lo with
  | none => some t
  | some x => if t < x then some t else some x

/-- `if (!hi || t > hi) hi = t` on an optional epoch time. -/
def maxOpt (hi : Option Int) (t : Int) : Option Int :=
  match hi with
  | none => some t
  | some x => if t > x then some t else some x

/-- The timestamp block of `processSession` (src/unnamed/part_000 lines
262-281): for a record with a timestamp at or after the six-month cutoff,
register its date, bump the hour and weekday buckets, and push the running
session start / end and global last-activity times. -/
def tsUpdate (cutoff : Int) (r : Record) (g : GState) (a : SessionAcc) :
    GState × SessionAcc :=
  match r.timestamp with
  | none => (g, a)
  | some ts =>
    if cutoff ≤ ts.time then
      ({ g with
          datesSeen := addDate g.datesSeen ts.dateStr
          hourlyActivity := bumpFin g.hourlyActivity ts.hour
          weekdayActivity := bumpFin g.weekdayActivity ts.weekday
          lastActivity := maxOpt g.lastActivity ts.time },
       { a with
          sessionStart := minOpt a.sessionStart ts.time
          sessionEnd := maxOpt a.sessionEnd ts.time })
    else (g, a)

/-- The message-count block of `processSession` (lines 283-286). -/
def msgUpdate (r : Record) (a : SessionAcc) : SessionAcc :=
  if isUA r then { a with sessionMessages := a.sessionMessages + 1 } else a

/-- The git-branch block of `processSession` (lines 288-292):
`if (line.gitBranch && !branch)` — note the JS truthiness test, under
which an empty-string branch is skipped. -/
def branchUpdate (r : Record) (g : GState) (a : SessionAcc) :
    GState × SessionAcc :=
  match r.gitBranch, a.branch with
  | some b, none =>
    if b.isEmpty then (g, a)
    else ({ g with branchCounts := bump g.branchCounts b },
          { a with branch := some b })
  | _, _ => (g, a)

/-- `block.name || 'unknown'`. -/
def toolNameOf (b : ContentBlock) : String :=
  match b.name with
  | some n => if n.isEmpty then "unknown" else n
  | none => "unknown"

/-- One iteration of the block loop of `processSession` (lines 298-304),
acting on the pair (toolCounts, sessionToolCalls). -/
def toolBlockStep (st : List (String × Nat) × Nat) (b : ContentBlock) :
    List (String × Nat) × Nat :=
  if b.btype == some "tool_use" then
    (bump st.1 (toolNameOf b), st.2 + 1)
  else st

/-- The tool-call block of `processSession` (lines 294-306): only fires for
assistant records whose truthy `message.content` is an array; every array
is truthy in JS, so the guard reduces to the array pattern. -/
def toolUpdate (r : Record) (g : GState) (a : SessionAcc) :
    GState × SessionAcc :=
  if r.rtype == some "assistant" then
    match r.message with
    | some m =>
      match m.content with
      | some (MessageContent.arr blocks) =>
        let res := blocks.foldl toolBlockStep (g.toolCounts, a.sessionToolCalls)
        ({ g with toolCounts := res.1 }, { a with sessionToolCalls := res.2 })
      | _ => (g, a)
    | none => (g, a)
  else (g, a)

/-- The model-usage block of `processSession` (lines 308-317), guarded by
the truthiness of `line.message?.model`. -/
def modelUpdate (r : Record) (g : GState) : GState :=
  match r.message with
  | some m =>
    match m.model with
    | some mo =>
      if mo.isEmpty then g
      else { g with modelUsage := bumpSessions g.modelUsage (classify mo) }
    | none => g
  | none => g

/-- One iteration of the record loop of `processSession`, in source order:
timestamps, message count, git branch, tool calls, model usage. -/
def processLine (cutoff : Int) (st : GState × SessionAcc) (r : Record) :
    GState × SessionAcc :=
  let p1 := tsUpdate cutoff r st.1 st.2
  let a2 := msgUpdate r p1.2
  let p3 := branchUpdate r p1.1 a2
  let p4 := toolUpdate r p3.1 p3.2
  (modelUpdate r p4.1, p4.2)

/-- Embedding of `processSession` (src/unnamed/part_000 lines 254-330),
restricted to the record loop: fold the per-record update over the lines
of one session file, starting from fresh session-local accumulators. -/
def processSession (cutoff : Int) (lines : List Record) (g : GState) :
    GState × SessionAcc :=
  lines.foldl (processLine cutoff) (g, initAcc)

/-- The per-project statistics object of the comprehensive generator. -/
structure ProjectStats where
  name : String
  sessions : Nat
  messages : Nat
  toolCalls : Nat
  branches : List String
  lastActivity : Option Int
deriving DecidableEq

/-- The project-update tail of `processSession` (lines 321-329). -/
def updateProject (p : ProjectStats) (a : SessionAcc) : ProjectStats :=
  { p with
      sessions := p.sessions + 1
      messages := p.messages + a.sessionMessages
      toolCalls := p.toolCalls + a.sessionToolCalls
      branches :=
        match a.branch with
        | some b => if b ∈ p.branches then p.branches else p.branches ++ [b]
        | none => p.branches
      lastActivity :=
        match a.sessionEnd with
        | some e => maxOpt p.lastActivity e
        | none => p.lastActivity }

/-- The main scan loop: process every session file in turn against the
shared global state. -/
def runScan (cutoff : Int) (sessions : List (List Record)) (g : GState) :
    GState :=
  sessions.foldl (fun s lines => (processSession cutoff lines s).1) g

/-- Cache seeding of the hourly buckets (src/unnamed/part_000 lines
136-141): `data.hourlyActivity[parseInt(hour)] = count` for every entry of
`statsCache.hourCounts`; an assignment, not an increment. -/
def seedHourly (b : Fin 24 → Nat) (entries : List (Fin 24 × Nat)) :
    Fin 24 → Nat :=
  entries.foldl (fun acc p => Function.update acc p.1 p.2) b

/-- The global state right before the project scan: fresh state with the
hourly buckets seeded from the cache. -/
def scanInit (cache : List (Fin 24 × Nat)) : GState :=
  { initGState with hourlyActivity := seedHourly initGState.hourlyActivity cache }

/-- Sum of the 24 hourly-activity buckets. -/
def sumHourly (b : Fin 24 → Nat) : Nat := ∑ h : Fin 24, b h

/-- Sum of the 7 weekday-activity buckets. -/
def sumWeekday (b : Fin 7 → Nat) : Nat := ∑ d : Fin 7, b d

/-- Is the record timestamped within the retention window
(`ts >= SIX_MONTHS_AGO`)? -/
def inWindow (cutoff : Int) (r : Record) : Bool :=
  match r.timestamp with
  | some ts => decide (cutoff ≤ ts.time)
  | none => false

/-- Number of records of one session file timestamped within the window. -/
def inWindowCount (cutoff : Int) (lines : List Record) : Nat :=
  (lines.filter (inWindow cutoff)).length

/-- Number of in-window timestamped records over all session files. -/
def totalInWindow (cutoff : Int) (sessions : List (List Record)) : Nat :=
  (sessions.map (inWindowCount cutoff)).sum

/-- Number of `tool_use` blocks a record contributes (0 unless it is an
assistant record with array content). -/
def toolBlocksOf (r : Record) : Nat :=
  if r.rtype == some "assistant" then
    match r.message with
    | some m =>
      match m.content with
      | some (MessageContent.arr blocks) =>
        (blocks.filter (fun b => b.btype == some "tool_use")).length
      | _ => 0
    | none => 0
  else 0

/-- The truthy `gitBranch` value of a record, if any: `none` for an absent
field and for the falsy empty string. -/
def truthyBranchOf (r : Record) : Option String :=
  match r.gitBranch with
  | some b => if b.isEmpty then none else some b
  | none => none

/-- The first truthy `gitBranch` of a session file, in file order. -/
def firstTruthyBranch (lines : List Record) : Option String :=
  lines.findSome? truthyBranchOf

/-- The per-session message fold shared by the server (src/server.js lines
72-74) and the sanitized generator (src/generate-data.js lines 55-57):
`entries.forEach(entry => { if (type user or assistant) totalMessages++ })`. -/
def serverCountMessages (entries : List Record) : Nat :=
  entries.foldl (fun n e => if isUA e then n + 1 else n) 0

/-! ## Pricing and cost estimation -/

/-- One row of the static per-million-token price table. -/
structure Rates where
  inputRate : ℚ
  outputRate : ℚ
  cacheReadRate : ℚ
  cacheWriteRate : ℚ
deriving DecidableEq

/-- The Sonnet row of `PRICING` (src/unnamed/part_000 line 28). -/
def sonnetRates : Rates := ⟨3, 15, 3 / 10, 15 / 4⟩

/-- The Opus row of `PRICING` (line 29). -/
def opusRates : Rates := ⟨15, 75, 3 / 2, 75 / 4⟩

/-- The default row of `PRICING` (line 30). -/
def defaultRates : Rates := ⟨3, 15, 3 / 10, 15 / 4⟩

/-- The static `PRICING` table (src/unnamed/part_000 lines 27-31). -/
def PRICING : List (String × Rates) :=
  [("claude-sonnet-4-5-20250929", sonnetRates),
   ("claude-opus-4-5-20251101", opusRates),
   ("default", defaultRates)]

/-- Rate-row selection of the cost loop (line 366):
`model.includes('Opus') ? PRICING['claude-opus-4-5-20251101'] :
PRICING['default']`. -/
def priceRow (name : String) : Rates :=
  if jsIncludes name "Opus" then opusRates else defaultRates

/-- Token counters of one `data.modelUsage` entry as read by the cost loop. -/
structure TokenUsage where
  inputTokens : Nat
  outputTokens : Nat
  cacheRead : Nat
  cacheWrite : Nat
deriving DecidableEq

/-- The per-model cost of the comprehensive generator (src/unnamed/part_000
lines 364-372): all four token categories, divided by one million and
multiplied by the selected rate row. -/
def modelCost (name : String) (u : TokenUsage) : ℚ :=
  let pricing := priceRow name
  (u.inputTokens : ℚ) / 1000000 * pricing.inputRate +
  (u.outputTokens : ℚ) / 1000000 * pricing.outputRate +
  (u.cacheRead : ℚ) / 1000000 * pricing.cacheReadRate +
  (u.cacheWrite : ℚ) / 1000000 * pricing.cacheWriteRate

/-- Modelled from the claim wording: the four-category cost formula, sum
over input, output, cache-read and cache-write of tokens over one million
times the per-million rate of the row. -/
def specFourCategoryCost (row : Rates) (tIn tOut tCR tCW : Nat) : ℚ :=
  (tIn : ℚ) / 1000000 * row.inputRate +
  (tOut : ℚ) / 1000000 * row.outputRate +
  (tCR : ℚ) / 1000000 * row.cacheReadRate +
  (tCW : ℚ) / 1000000 * row.cacheWriteRate

/-- The three-category cost formula that omits the cache-write category. -/
def specThreeCategoryCost (row : Rates) (tIn tOut tCR : Nat) : ℚ :=
  (tIn : ℚ) / 1000000 * row.inputRate +
  (tOut : ℚ) / 1000000 * row.outputRate +
  (tCR : ℚ) / 1000000 * row.cacheReadRate

/-- One `stats.modelUsage` entry of the cache as read by the sanitized
generator. -/
structure CacheUsage where
  inputTokens : Nat
  outputTokens : Nat
  cacheReadInputTokens : Nat
  cacheCreationInputTokens : Nat
deriving DecidableEq

/-- The per-model cost of the sanitized generator (src/generate-data.js
lines 75-83): inline rates selected by `model.includes('opus')`, and no
term at all for the `cacheCreationInputTokens` category. -/
def sanitizedCost (model : String) (u : CacheUsage) : ℚ :=
  let inputCost :=
    (u.inputTokens : ℚ) / 1000000 * (if jsIncludes model "opus" then 15 else 3)
  let outputCost :=
    (u.outputTokens : ℚ) / 1000000 * (if jsIncludes model "opus" then 75 else 15)
  let cacheCost :=
    (u.cacheReadInputTokens : ℚ) / 1000000 *
      (if jsIncludes model "opus" then 3 / 2 else 3 / 10)
  inputCost + outputCost + cacheCost

/-! ## Ranking and truncation -/

/-- The order in which the JS comparator `(a, b) => key(b) - key(a)` sorts:
descending by key. -/
def geBy {α : Type} (f : α → Nat) : α → α → Prop :=
  fun a b => f b ≤ f a

instance {α : Type} (f : α → Nat) : DecidableRel (geBy f) :=
  fun a b => Nat.decLe (f b) (f a)

instance {α : Type} (f : α → Nat) : IsTotal α (geBy f) :=
  ⟨fun a b => Nat.le_total (f b) (f a)⟩

instance {α : Type} (f : α → Nat) : IsTrans α (geBy f) :=
  ⟨fun _ _ _ h1 h2 => Nat.le_trans h2 h1⟩

/-- `data.toolUsage` (src/unnamed/part_000 lines 333-339): entries of the
tool counter, sorted descending by count, truncated to the top 20.  The
final `reduce` back into an object keeps this entry order, so the object
is modelled by the truncated list itself. -/
def topTools (toolCounts : List (String × Nat)) : List (String × Nat) :=
  (toolCounts.insertionSort (geBy Prod.snd)).take 20

/-- `data.gitBranches` (lines 342-348): descending by count, top 15. -/
def topBranches (branchCounts : List (String × Nat)) : List (String × Nat) :=
  (branchCounts.insertionSort (geBy Prod.snd)).take 15

/-- The public shape of one project entry (lines 352-359). -/
structure ProjectOut where
  name : String
  sessions : Nat
  messages : Nat
  toolCalls : Nat
  branches : List String
  lastActivity : Option Int
deriving DecidableEq

/-- The per-project reshaping of the projects list (lines 352-359),
including the `slice(0, 5)` on branches. -/
def projectOut (p : ProjectStats) : ProjectOut :=
  ⟨p.name, p.sessions, p.messages, p.toolCalls, p.branches.take 5,
   p.lastActivity⟩

/-- `data.projects` (lines 351-362): map to the public shape, drop empty
projects, sort descending by session count, truncate to the top 10. -/
def topProjects (ps : List ProjectStats) : List ProjectOut :=
  (((ps.map projectOut).filter (fun p => decide (0 < p.sessions))).insertionSort
      (geBy ProjectOut.sessions)).take 10

/-! ## HTTP handlers of the server -/

/-- An HTTP response: status code and JSON body. -/
structure HttpResponse where
  status : Nat
  body : Json

/-- The body of `res.status(s).json({ error: msg, details: e.message })`. -/
def errBody (msg details : String) : Json :=
  Json.obj [("error", Json.str msg), ("details", Json.str details)]

/-- Is the status a server-fault status? -/
def is5xx (status : Nat) : Bool :=
  decide (500 ≤ status) && decide (status < 600)

/-- Does the body carry the structured error shape (an object whose first
key is "error")? -/
def isErrorBody : Json → Bool
  | Json.obj (("error", _) :: _) => true
  | _ => false

/-- The shared try / catch shape of every handler of src/server.js: run the
handler body; any thrown error `e` becomes
`res.status(500).json({ error: msg, details: e.message })`. -/
def tryHandler (msg : String) (body : Except String HttpResponse) :
    HttpResponse :=
  match body with
  | Except.ok r => r
  | Except.error e => ⟨500, errBody msg e⟩

/-- `/api/stats` (src/server.js lines 39-46): parse the cache file and
serve it; the argument is the outcome of `JSON.parse(readFileSync(...))`. -/
def statsHandler (cacheRead : Except String Json) : HttpResponse :=
  tryHandler "Failed to read stats" (cacheRead.map (fun stats => ⟨200, stats⟩))

/-- The observable filesystem for the session-detail handler: whether a
path exists, and the lines behind a path (`none` models an unreadable
file, which `parseJSONL` swallows). -/
structure SessionDirFS where
  pathExists : String → Bool
  readLines : String → Option (List RawLine)

/-- The primary session file path `PROJECTS_DIR/project/sessionId.jsonl`. -/
def sessionFilePath (project sessionId : String) : String :=
  project ++ "/" ++ sessionId ++ ".jsonl"

/-- The fallback agent file path
`PROJECTS_DIR/project/agent-sessionId.slice(0, 8).jsonl`. -/
def agentFilePath (project sessionId : String) : String :=
  project ++ "/agent-" ++ strTake sessionId 8 ++ ".jsonl"

/-- `/api/session/:project/:sessionId` (src/server.js lines 132-152):
serve the primary file if it exists, otherwise the agent fallback built
from the first 8 characters of the session id, otherwise a 404 JSON
error. -/
def sessionHandler (fs : SessionDirFS) (project sessionId : String) :
    HttpResponse :=
  let sessionPath := sessionFilePath project sessionId
  if fs.pathExists sessionPath then
    ⟨200, Json.arr (parseJSONL (fs.readLines sessionPath))⟩
  else
    let agentPath := agentFilePath project sessionId
    if fs.pathExists agentPath then
      ⟨200, Json.arr (parseJSONL (fs.readLines agentPath))⟩
    else
      ⟨404, Json.obj [("error", Json.str "Session not found")]⟩

/-- A filesystem with no readable files at all. -/
def emptyFS : SessionDirFS :=
  ⟨fun _ => false, fun _ => none⟩

/-! ## Concrete inputs used to evaluate the definitions -/

/-- A record with an in-window timestamp (epoch time 0, hour 1, Tuesday)
and nothing else. -/
def tsOnlyRecord : Record :=
  ⟨some ⟨0, 1, 2, "1970-01-01"⟩, none, none, none⟩

/-- A record whose only content is the truthy git branch "main". -/
def mainBranchRecord : Record :=
  ⟨none, none, some "main", none⟩

/-- A record carrying a `gitBranch` field holding the falsy empty string. -/
def emptyBranchRecord : Record :=
  ⟨none, none, some "", none⟩

/-- A record carrying a model identifier and nothing else. -/
def opusModelRecord : Record :=
  ⟨none, none, none, some ⟨some "claude-opus-4-5", none⟩⟩

/-- A one-entry cache `hourCounts` object seeding hour 0 with count 5. -/
def hourSeedCache : List (Fin 24 × Nat) := [(0, 5)]

/-- A filesystem holding exactly one agent fallback file. -/
def agentFS : SessionDirFS :=
  ⟨fun p => p == "proj/agent-abcdefgh.jsonl",
   fun p =>
     if p == "proj/agent-abcdefgh.jsonl" then
       some [⟨true, some (Json.obj [("type", Json.str "user")])⟩]
     else none⟩

/-! ## Helper lemmas -/

theorem mapSum_bump (m : List (String × Nat)) (s : String) :
    mapSum (bump m s) = mapSum m + 1 := by
  induction m with
  | nil => simp [bump, mapSum]
  | cons p rest ih =>
    obtain ⟨k', v⟩ := p
    by_cases h : k' = s <;> simp [bump, mapSum, h] at * <;> omega

theorem sessionsOf_bumpSessions (m : List (String × MU)) (k : String) :
    sessionsOf (bumpSessions m k) k = sessionsOf m k + 1 := by
  induction m with
  | nil => simp [bumpSessions, sessionsOf, List.lookup]
  | cons p rest ih =>
    obtain ⟨k', u⟩ := p
    by_cases h : k' = k
    · subst h
      simp [bumpSessions, sessionsOf, List.lookup]
    · have hbeq : (k == k') = false := by
        simp [beq_iff_eq]
        exact fun hk => h hk.symm
      simp [bumpSessions, sessionsOf, List.lookup, h, hbeq] at *
      exact ih

theorem sum_bumpFin {n : Nat} (b : Fin n → Nat) (i : Fin n) :
    (∑ x : Fin n, bumpFin b i x) = (∑ x : Fin n, b x) + 1 := by
  unfold bumpFin
  rw [Finset.sum_update_of_mem (Finset.mem_univ i),
    Finset.sdiff_singleton_eq_erase]
  have h2 := Finset.sum_erase_add Finset.univ b (Finset.mem_univ i)
  omega

theorem sumHourly_bump (b : Fin 24 → Nat) (i : Fin 24) :
    sumHourly (bumpFin b i) = sumHourly b + 1 :=
  sum_bumpFin b i

theorem sumWeekday_bump (b : Fin 7 → Nat) (i : Fin 7) :
    sumWeekday (bumpFin b i) = sumWeekday b + 1 :=
  sum_bumpFin b i

/-! ### Frame lemmas for the components of `processLine` -/

theorem tsUpdate_sessionMessages (c : Int) (r : Record) (g : GState)
    (a : SessionAcc) : (tsUpdate c r g a).2.sessionMessages = a.sessionMessages := by
  unfold tsUpdate
  cases r.timestamp with
  | none => rfl
  | some ts => by_cases h : c ≤ ts.time <;> simp [h]

theorem tsUpdate_sessionToolCalls (c : Int) (r : Record) (g : GState)
    (a : SessionAcc) :
    (tsUpdate c r g a).2.sessionToolCalls = a.sessionToolCalls := by
  unfold tsUpdate
  cases r.timestamp with
  | none => rfl
  | some ts => by_cases h : c ≤ ts.time <;> simp [h]

theorem tsUpdate_branchAcc (c : Int) (r : Record) (g : GState)
    (a : SessionAcc) : (tsUpdate c r g a).2.branch = a.branch := by
  unfold tsUpdate
  cases r.timestamp with
  | none => rfl
  | some ts => by_cases h : c ≤ ts.time <;> simp [h]

theorem tsUpdate_toolCounts (c : Int) (r : Record) (g : GState)
    (a : SessionAcc) : (tsUpdate c r g a).1.toolCounts = g.toolCounts := by
  unfold tsUpdate
  cases r.timestamp with
  | none => rfl
  | some ts => by_cases h : c ≤ ts.time <;> simp [h]

theorem tsUpdate_branchCounts (c : Int) (r : Record) (g : GState)
    (a : SessionAcc) : (tsUpdate c r g a).1.branchCounts = g.branchCounts := by
  unfold tsUpdate
  cases r.timestamp with
  | none => rfl
  | some ts => by_cases h : c ≤ ts.time <;> simp [h]

theorem tsUpdate_modelUsage (c : Int) (r : Record) (g : GState)
    (a : SessionAcc) : (tsUpdate c r g a).1.modelUsage = g.modelUsage := by
  unfold tsUpdate
  cases r.timestamp with
  | none => rfl
  | some ts => by_cases h : c ≤ ts.time <;> simp [h]

theorem tsUpdate_hourlySum (c : Int) (r : Record) (g : GState)
    (a : SessionAcc) :
    sumHourly (tsUpdate c r g a).1.hourlyActivity
      = sumHourly g.hourlyActivity + (if inWindow c r then 1 else 0) := by
  unfold tsUpdate inWindow
  cases r.timestamp with
  | none => simp
  | some ts => by_cases h : c ≤ ts.time <;> simp [h, sumHourly_bump]

theorem tsUpdate_weekdaySum (c : Int) (r : Record) (g : GState)
    (a : SessionAcc) :
    sumWeekday (tsUpdate c r g a).1.weekdayActivity
      = sumWeekday g.weekdayActivity + (if inWindow c r then 1 else 0) := by
  unfold tsUpdate inWindow
  cases r.timestamp with
  | none => simp
  | some ts => by_cases h : c ≤ ts.time <;> simp [h, sumWeekday_bump]

theorem msgUpdate_sessionMessages (r : Record) (a : SessionAcc) :
    (msgUpdate r a).sessionMessages
      = a.sessionMessages + (if isUA r then 1 else 0) := by
  unfold msgUpdate
  by_cases h : isUA r <;> simp [h]

theorem msgUpdate_sessionToolCalls (r : Record) (a : SessionAcc) :
    (msgUpdate r a).sessionToolCalls = a.sessionToolCalls := by
  unfold msgUpdate
  by_cases h : isUA r <;> simp [h]

theorem msgUpdate_branchAcc (r : Record) (a : SessionAcc) :
    (msgUpdate r a).branch = a.branch := by
  unfold msgUpdate
  by_cases h : isUA r <;> simp [h]

theorem branchUpdate_sessionMessages (r : Record) (g : GState)
    (a : SessionAcc) :
    (branchUpdate r g a).2.sessionMessages = a.sessionMessages := by
  unfold branchUpdate
  cases r.gitBranch with
  | none => cases a.branch <;> rfl
  | some b =>
    cases a.branch with
    | none => by_cases h : b.isEmpty <;> simp [h]
    | some b0 => rfl

theorem branchUpdate_sessionToolCalls (r : Record) (g : GState)
    (a : SessionAcc) :
    (branchUpdate r g a).2.sessionToolCalls = a.sessionToolCalls := by
  unfold branchUpdate
  cases r.gitBranch with
  | none => cases a.branch <;> rfl
  | some b =>
    cases a.branch with
    | none => by_cases h : b.isEmpty <;> simp [h]
    | some b0 => rfl

theorem branchUpdate_hourly (r : Record) (g : GState) (a : SessionAcc) :
    (branchUpdate r g a).1.hourlyActivity = g.hourlyActivity := by
  unfold branchUpdate
  cases r.gitBranch with
  | none => cases a.branch <;> rfl
  | some b =>
    cases a.branch with
    | none => by_cases h : b.isEmpty <;> simp [h]
    | some b0 => rfl

theorem branchUpdate_weekday (r : Record) (g : GState) (a : SessionAcc) :
    (branchUpdate r g a).1.weekdayActivity = g.weekdayActivity := by
  unfold branchUpdate
  cases r.gitBranch with
  | none => cases a.branch <;> rfl
  | some b =>
    cases a.branch with
    | none => by_cases h : b.isEmpty <;> simp [h]
    | some b0 => rfl

theorem branchUpdate_toolCounts (r : Record) (g : GState) (a : SessionAcc) :
    (branchUpdate r g a).1.toolCounts = g.toolCounts := by
  unfold branchUpdate
  cases r.gitBranch with
  | none => cases a.branch <;> rfl
  | some b =>
    cases a.branch with
    | none => by_cases h : b.isEmpty <;> simp [h]
    | some b0 => rfl

theorem branchUpdate_modelUsage (r : Record) (g : GState) (a : SessionAcc) :
    (branchUpdate r g a).1.modelUsage = g.modelUsage := by
  unfold branchUpdate
  cases r.gitBranch with
  | none => cases a.branch <;> rfl
  | some b =>
    cases a.branch with
    | none => by_cases h : b.isEmpty <;> simp [h]
    | some b0 => rfl

theorem branchUpdate_skip (r : Record) (g : GState) (a : SessionAcc)
    (b0 : String) (ha : a.branch = some b0) : branchUpdate r g a = (g, a) := by
  unfold branchUpdate
  rw [ha]
  cases r.gitBranch <;> rfl

theorem branchUpdate_absent (r : Record) (g : GState) (a : SessionAcc)
    (ha : a.branch = none) (hb : truthyBranchOf r = none) :
    branchUpdate r g a = (g, a) := by
  unfold branchUpdate
  unfold truthyBranchOf at hb
  rw [ha]
  cases hgb : r.gitBranch with
  | none => rfl
  | some b =>
    rw [hgb] at hb
    by_cases h : b.isEmpty
    · simp [h]
    · simp [h] at hb

theorem branchUpdate_found (r : Record) (g : GState) (a : SessionAcc)
    (b : String) (ha : a.branch = none) (hb : truthyBranchOf r = some b) :
    branchUpdate r g a
      = ({ g with branchCounts := bump g.branchCounts b },
         { a with branch := some b }) := by
  unfold branchUpdate
  unfold truthyBranchOf at hb
  rw [ha]
  cases hgb : r.gitBranch with
  | none => rw [hgb] at hb; cases hb
  | some b' =>
    rw [hgb] at hb
    by_cases h : b'.isEmpty
    · simp [h] at hb
    · simp [h] at hb ⊢
      exact ⟨by rw [hb], hb⟩

theorem toolUpdate_sessionMessages (r : Record) (g : GState)
    (a : SessionAcc) :
    (toolUpdate r g a).2.sessionMessages = a.sessionMessages := by
  unfold toolUpdate
  by_cases h : r.rtype == some "assistant" <;> simp [h]
  cases r.message with
  | none => rfl
  | some m =>
    obtain ⟨mmod, mcon⟩ := m
    cases mcon with
    | none => rfl
    | some mc => cases mc <;> rfl

theorem toolUpdate_branchAcc (r : Record) (g : GState) (a : SessionAcc) :
    (toolUpdate r g a).2.branch = a.branch := by
  unfold toolUpdate
  by_cases h : r.rtype == some "assistant" <;> simp [h]
  cases r.message with
  | none => rfl
  | some m =>
    obtain ⟨mmod, mcon⟩ := m
    cases mcon with
    | none => rfl
    | some mc => cases mc <;> rfl

theorem toolUpdate_hourly (r : Record) (g : GState) (a : SessionAcc) :
    (toolUpdate r g a).1.hourlyActivity = g.hourlyActivity := by
  unfold toolUpdate
  by_cases h : r.rtype == some "assistant" <;> simp [h]
  cases r.message with
  | none => rfl
  | some m =>
    obtain ⟨mmod, mcon⟩ := m
    cases mcon with
    | none => rfl
    | some mc => cases mc <;> rfl

theorem toolUpdate_weekday (r : Record) (g : GState) (a : SessionAcc) :
    (toolUpdate r g a).1.weekdayActivity = g.weekdayActivity := by
  unfold toolUpdate
  by_cases h : r.rtype == some "assistant" <;> simp [h]
  cases r.message with
  | none => rfl
  | some m =>
    obtain ⟨mmod, mcon⟩ := m
    cases mcon with
    | none => rfl
    | some mc => cases mc <;> rfl

theorem toolUpdate_branchCounts (r : Record) (g : GState) (a : SessionAcc) :
    (toolUpdate r g a).1.branchCounts = g.branchCounts := by
  unfold toolUpdate
  by_cases h : r.rtype == some "assistant" <;> simp [h]
  cases r.message with
  | none => rfl
  | some m =>
    obtain ⟨mmod, mcon⟩ := m
    cases mcon with
    | none => rfl
    | some mc => cases mc <;> rfl

theorem toolUpdate_modelUsage (r : Record) (g : GState) (a : SessionAcc) :
    (toolUpdate r g a).1.modelUsage = g.modelUsage := by
  unfold toolUpdate
  by_cases h : r.rtype == some "assistant" <;> simp [h]
  cases r.message with
  | none => rfl
  | some m =>
    obtain ⟨mmod, mcon⟩ := m
    cases mcon with
    | none => rfl
    | some mc => cases mc <;> rfl

theorem toolBlockFold (blocks : List ContentBlock)
    (m : List (String × Nat)) (k : Nat) :
    mapSum (blocks.foldl toolBlockStep (m, k)).1
        = mapSum m
          + (blocks.filter (fun b => b.btype == some "tool_use")).length
      ∧ (blocks.foldl toolBlockStep (m, k)).2
        = k + (blocks.filter (fun b => b.btype == some "tool_use")).length := by
  induction blocks generalizing m k with
  | nil => simp
  | cons b bs ih =>
    by_cases h : b.btype == some "tool_use" <;>
      simp [toolBlockStep, h, List.filter_cons]
    · have := ih (bump m (toolNameOf b)) (k + 1)
      rw [this.1, this.2, mapSum_bump]
      omega
    · exact ih m k

theorem toolUpdate_toolSum (r : Record) (g : GState) (a : SessionAcc) :
    mapSum (toolUpdate r g a).1.toolCounts
      = mapSum g.toolCounts + toolBlocksOf r := by
  unfold toolUpdate toolBlocksOf
  by_cases h : r.rtype == some "assistant" <;> simp [h]
  cases r.message with
  | none => rfl
  | some m =>
    obtain ⟨mmod, mcon⟩ := m
    cases mcon with
    | none => rfl
    | some mc =>
      cases mc with
      | str s => rfl
      | other => rfl
      | arr blocks =>
        simp
        exact (toolBlockFold blocks g.toolCounts a.sessionToolCalls).1

theorem toolUpdate_sessionToolCalls (r : Record) (g : GState)
    (a : SessionAcc) :
    (toolUpdate r g a).2.sessionToolCalls
      = a.sessionToolCalls + toolBlocksOf r := by
  unfold toolUpdate toolBlocksOf
  by_cases h : r.rtype == some "assistant" <;> simp [h]
  cases r.message with
  | none => rfl
  | some m =>
    obtain ⟨mmod, mcon⟩ := m
    cases mcon with
    | none => rfl
    | some mc =>
      cases mc with
      | str s => rfl
      | other => rfl
      | arr blocks =>
        simp
        exact (toolBlockFold blocks g.toolCounts a.sessionToolCalls).2

theorem modelUpdate_hourly (r : Record) (g : GState) :
    (modelUpdate r g).hourlyActivity = g.hourlyActivity := by
  unfold modelUpdate
  cases r.message with
  | none => rfl
  | some m =>
    obtain ⟨mmod, mcon⟩ := m
    cases mmod with
    | none => rfl
    | some mo => by_cases h : mo.isEmpty <;> simp [h]

theorem modelUpdate_weekday (r : Record) (g : GState) :
    (modelUpdate r g).weekdayActivity = g.weekdayActivity := by
  unfold modelUpdate
  cases r.message with
  | none => rfl
  | some m =>
    obtain ⟨mmod, mcon⟩ := m
    cases mmod with
    | none => rfl
    | some mo => by_cases h : mo.isEmpty <;> simp [h]

theorem modelUpdate_toolCounts (r : Record) (g : GState) :
    (modelUpdate r g).toolCounts = g.toolCounts := by
  unfold modelUpdate
  cases r.message with
  | none => rfl
  | some m =>
    obtain ⟨mmod, mcon⟩ := m
    cases mmod with
    | none => rfl
    | some mo => by_cases h : mo.isEmpty <;> simp [h]

theorem modelUpdate_branchCounts (r : Record) (g : GState) :
    (modelUpdate r g).branchCounts = g.branchCounts := by
  unfold modelUpdate
  cases r.message with
  | none => rfl
  | some m =>
    obtain ⟨mmod, mcon⟩ := m
    cases mmod with
    | none => rfl
    | some mo => by_cases h : mo.isEmpty <;> simp [h]

theorem modelUpdate_found (r : Record) (g : GState) (mo : String)
    (hm : r.modelField = some mo) (hne : mo.isEmpty = false) :
    (modelUpdate r g).modelUsage = bumpSessions g.modelUsage (classify mo) := by
  unfold modelUpdate
  unfold Record.modelField at hm
  cases hmsg : r.message with
  | none => rw [hmsg] at hm; cases hm
  | some m =>
    rw [hmsg] at hm
    simp at hm
    obtain ⟨mmod, mcon⟩ := m
    simp at hm
    rw [hm]
    simp [hne]

/-! ### Per-record consequences for `processLine` -/

theorem processLine_messages (c : Int) (st : GState × SessionAcc)
    (r : Record) :
    (processLine c st r).2.sessionMessages
      = st.2.sessionMessages + (if isUA r then 1 else 0) := by
  simp [processLine, toolUpdate_sessionMessages, branchUpdate_sessionMessages,
    msgUpdate_sessionMessages, tsUpdate_sessionMessages]

theorem processLine_hourlySum (c : Int) (st : GState × SessionAcc)
    (r : Record) :
    sumHourly (processLine c st r).1.hourlyActivity
      = sumHourly st.1.hourlyActivity + (if inWindow c r then 1 else 0) := by
  simp [processLine, modelUpdate_hourly, toolUpdate_hourly,
    branchUpdate_hourly, tsUpdate_hourlySum]

theorem processLine_weekdaySum (c : Int) (st : GState × SessionAcc)
    (r : Record) :
    sumWeekday (processLine c st r).1.weekdayActivity
      = sumWeekday st.1.weekdayActivity + (if inWindow c r then 1 else 0) := by
  simp [processLine, modelUpdate_weekday, toolUpdate_weekday,
    branchUpdate_weekday, tsUpdate_weekdaySum]

theorem processLine_toolSum (c : Int) (st : GState × SessionAcc)
    (r : Record) :
    mapSum (processLine c st r).1.toolCounts
      = mapSum st.1.toolCounts + toolBlocksOf r := by
  simp [processLine, modelUpdate_toolCounts, toolUpdate_toolSum,
    branchUpdate_toolCounts, tsUpdate_toolCounts]

theorem processLine_toolCalls (c : Int) (st : GState × SessionAcc)
    (r : Record) :
    (processLine c st r).2.sessionToolCalls
      = st.2.sessionToolCalls + toolBlocksOf r := by
  simp [processLine, toolUpdate_sessionToolCalls,
    branchUpdate_sessionToolCalls, msgUpdate_sessionToolCalls,
    tsUpdate_sessionToolCalls]

theorem processLine_modelFound (c : Int) (st : GState × SessionAcc)
    (r : Record) (mo : String) (hm : r.modelField = some mo)
    (hne : mo.isEmpty = false) :
    (processLine c st r).1.modelUsage
      = bumpSessions st.1.modelUsage (classify mo) := by
  simp only [processLine]
  rw [modelUpdate_found _ _ mo hm hne, toolUpdate_modelUsage,
    branchUpdate_modelUsage, tsUpdate_modelUsage]

theorem processLine_branch_set (c : Int) (st : GState × SessionAcc)
    (r : Record) (b0 : String) (ha : st.2.branch = some b0) :
    (processLine c st r).1.branchCounts = st.1.branchCounts
      ∧ (processLine c st r).2.branch = some b0 := by
  simp only [processLine]
  have h2 : (msgUpdate r (tsUpdate c r st.1 st.2).2).branch = some b0 := by
    rw [msgUpdate_branchAcc, tsUpdate_branchAcc]; exact ha
  rw [branchUpdate_skip r (tsUpdate c r st.1 st.2).1
    (msgUpdate r (tsUpdate c r st.1 st.2).2) b0 h2]
  refine ⟨?_, ?_⟩
  · simp [modelUpdate_branchCounts, toolUpdate_branchCounts,
      tsUpdate_branchCounts]
  · simp [toolUpdate_branchAcc, h2]

theorem processLine_branch_keep (c : Int) (st : GState × SessionAcc)
    (r : Record) (ha : st.2.branch = none)
    (htb : truthyBranchOf r = none) :
    (processLine c st r).1.branchCounts = st.1.branchCounts
      ∧ (processLine c st r).2.branch = none := by
  simp only [processLine]
  have h2 : (msgUpdate r (tsUpdate c r st.1 st.2).2).branch = none := by
    rw [msgUpdate_branchAcc, tsUpdate_branchAcc]; exact ha
  rw [branchUpdate_absent r (tsUpdate c r st.1 st.2).1
    (msgUpdate r (tsUpdate c r st.1 st.2).2) h2 htb]
  refine ⟨?_, ?_⟩
  · simp [modelUpdate_branchCounts, toolUpdate_branchCounts,
      tsUpdate_branchCounts]
  · simp [toolUpdate_branchAcc, h2]

theorem processLine_branch_found (c : Int) (st : GState × SessionAcc)
    (r : Record) (b : String) (ha : st.2.branch = none)
    (htb : truthyBranchOf r = some b) :
    (processLine c st r).1.branchCounts = bump st.1.branchCounts b
      ∧ (processLine c st r).2.branch = some b := by
  simp only [processLine]
  have h2 : (msgUpdate r (tsUpdate c r st.1 st.2).2).branch = none := by
    rw [msgUpdate_branchAcc, tsUpdate_branchAcc]; exact ha
  rw [branchUpdate_found r (tsUpdate c r st.1 st.2).1
    (msgUpdate r (tsUpdate c r st.1 st.2).2) b h2 htb]
  refine ⟨?_, ?_⟩
  · simp [modelUpdate_branchCounts, toolUpdate_branchCounts,
      tsUpdate_branchCounts]
  · simp [toolUpdate_branchAcc]

/-! ### Whole-file fold lemmas -/

theorem foldl_messages (c : Int) (lines : List Record)
    (st : GState × SessionAcc) :
    (lines.foldl (processLine c) st).2.sessionMessages
      = st.2.sessionMessages + (lines.filter isUA).length := by
  induction lines generalizing st with
  | nil => simp
  | cons r rs ih =>
    simp only [List.foldl_cons]
    rw [ih, processLine_messages]
    by_cases h : isUA r <;> simp [h, List.filter_cons] <;> omega

theorem foldl_hourlySum (c : Int) (lines : List Record)
    (st : GState × SessionAcc) :
    sumHourly (lines.foldl (processLine c) st).1.hourlyActivity
      = sumHourly st.1.hourlyActivity + inWindowCount c lines := by
  induction lines generalizing st with
  | nil => simp [inWindowCount]
  | cons r rs ih =>
    simp only [List.foldl_cons]
    rw [ih, processLine_hourlySum]
    by_cases h : inWindow c r <;>
      simp [h, inWindowCount, List.filter_cons] <;> omega

theorem foldl_weekdaySum (c : Int) (lines : List Record)
    (st : GState × SessionAcc) :
    sumWeekday (lines.foldl (processLine c) st).1.weekdayActivity
      = sumWeekday st.1.weekdayActivity + inWindowCount c lines := by
  induction lines generalizing st with
  | nil => simp [inWindowCount]
  | cons r rs ih =>
    simp only [List.foldl_cons]
    rw [ih, processLine_weekdaySum]
    by_cases h : inWindow c r <;>
      simp [h, inWindowCount, List.filter_cons] <;> omega

theorem foldl_toolSum (c : Int) (lines : List Record)
    (st : GState × SessionAcc) :
    mapSum (lines.foldl (processLine c) st).1.toolCounts
      = mapSum st.1.toolCounts + (lines.map toolBlocksOf).sum := by
  induction lines generalizing st with
  | nil => simp
  | cons r rs ih =>
    simp only [List.foldl_cons]
    rw [ih, processLine_toolSum]
    simp
    omega

theorem foldl_toolCalls (c : Int) (lines : List Record)
    (st : GState × SessionAcc) :
    (lines.foldl (processLine c) st).2.sessionToolCalls
      = st.2.sessionToolCalls + (lines.map toolBlocksOf).sum := by
  induction lines generalizing st with
  | nil => simp
  | cons r rs ih =>
    simp only [List.foldl_cons]
    rw [ih, processLine_toolCalls]
    simp
    omega

theorem foldl_branch_set (c : Int) (lines : List Record)
    (st : GState × SessionAcc) (b0 : String) (ha : st.2.branch = some b0) :
    (lines.foldl (processLine c) st).1.branchCounts = st.1.branchCounts
      ∧ (lines.foldl (processLine c) st).2.branch = some b0 := by
  induction lines generalizing st with
  | nil => exact ⟨rfl, ha⟩
  | cons r rs ih =>
    simp only [List.foldl_cons]
    obtain ⟨h1, h2⟩ := processLine_branch_set c st r b0 ha
    obtain ⟨ih1, ih2⟩ := ih (processLine c st r) h2
    exact ⟨by rw [ih1, h1], ih2⟩

theorem foldl_branch_from_none (c : Int) (lines : List Record)
    (st : GState × SessionAcc) (ha : st.2.branch = none) :
    (firstTruthyBranch lines = none →
        (lines.foldl (processLine c) st).1.branchCounts = st.1.branchCounts
        ∧ (lines.foldl (processLine c) st).2.branch = none)
    ∧ ∀ b, firstTruthyBranch lines = some b →
        (lines.foldl (processLine c) st).1.branchCounts
            = bump st.1.branchCounts b
        ∧ (lines.foldl (processLine c) st).2.branch = some b := by
  induction lines generalizing st with
  | nil =>
    refine ⟨fun _ => ⟨rfl, ha⟩, fun b hb => ?_⟩
    simp [firstTruthyBranch] at hb
  | cons r rs ih =>
    cases htb : truthyBranchOf r with
    | some b =>
      have hfb : firstTruthyBranch (r :: rs) = some b := by
        simp [firstTruthyBranch, List.findSome?_cons, htb]
      obtain ⟨h1, h2⟩ := processLine_branch_found c st r b ha htb
      obtain ⟨k1, k2⟩ :=
        foldl_branch_set c rs (processLine c st r) b h2
      refine ⟨fun hn => ?_, fun b' hb' => ?_⟩
      · rw [hfb] at hn; cases hn
      · rw [hfb] at hb'
        cases hb'
        exact ⟨by simp only [List.foldl_cons]; rw [k1, h1],
          by simp only [List.foldl_cons]; exact k2⟩
    | none =>
      have hfb : firstTruthyBranch (r :: rs) = firstTruthyBranch rs := by
        simp [firstTruthyBranch, List.findSome?_cons, htb]
      obtain ⟨h1, h2⟩ := processLine_branch_keep c st r ha htb
      obtain ⟨ihn, ihs⟩ := ih (processLine c st r) h2
      refine ⟨fun hn => ?_, fun b' hb' => ?_⟩
      · rw [hfb] at hn
        obtain ⟨k1, k2⟩ := ihn hn
        exact ⟨by simp only [List.foldl_cons]; rw [k1, h1],
          by simp only [List.foldl_cons]; exact k2⟩
      · rw [hfb] at hb'
        obtain ⟨k1, k2⟩ := ihs b' hb'
        exact ⟨by simp only [List.foldl_cons]; rw [k1, h1],
          by simp only [List.foldl_cons]; exact k2⟩

/-! ### Scan-level lemmas -/

theorem processSession_hourlySum (c : Int) (lines : List Record)
    (g : GState) :
    sumHourly (processSession c lines g).1.hourlyActivity
      = sumHourly g.hourlyActivity + inWindowCount c lines :=
  foldl_hourlySum c lines (g, initAcc)

theorem processSession_weekdaySum (c : Int) (lines : List Record)
    (g : GState) :
    sumWeekday (processSession c lines g).1.weekdayActivity
      = sumWeekday g.weekdayActivity + inWindowCount c lines :=
  foldl_weekdaySum c lines (g, initAcc)

theorem runScan_hourlySum (c : Int) (sessions : List (List Record))
    (g : GState) :
    sumHourly (runScan c sessions g).hourlyActivity
      = sumHourly g.hourlyActivity + totalInWindow c sessions := by
  induction sessions generalizing g with
  | nil => simp [runScan, totalInWindow]
  | cons lines rest ih =>
    simp only [runScan, List.foldl_cons] at *
    rw [ih, processSession_hourlySum]
    simp [totalInWindow]
    omega

theorem runScan_weekdaySum (c : Int) (sessions : List (List Record))
    (g : GState) :
    sumWeekday (runScan c sessions g).weekdayActivity
      = sumWeekday g.weekdayActivity + totalInWindow c sessions := by
  induction sessions generalizing g with
  | nil => simp [runScan, totalInWindow]
  | cons lines rest ih =>
    simp only [runScan, List.foldl_cons] at *
    rw [ih, processSession_weekdaySum]
    simp [totalInWindow]
    omega

/-! ### Parser lemmas -/

theorem parseJsonl_go (ls : List RawLine) (acc : List Json) :
    ls.foldl
      (fun acc l =>
        if l.nonBlank then
          match l.parsed with
          | some v => acc ++ [v]
          | none => acc
        else acc)
      acc
      = acc ++ (ls.filter (fun l => l.nonBlank)).filterMap (fun l => l.parsed) := by
  induction ls generalizing acc with
  | nil => simp
  | cons l rest ih =>
    by_cases hb : l.nonBlank <;> cases hp : l.parsed <;>
      simp [hb, hp, List.filter_cons, ih]

theorem mapGetD_filter (l : List RawLine) :
    ((l.map (fun x => x.parsed.getD Json.null)).filter Json.truthy)
      = (l.filterMap (fun x => x.parsed)).filter Json.truthy := by
  induction l with
  | nil => rfl
  | cons x rest ih =>
    cases hp : x.parsed with
    | none => simp [hp, Json.truthy, ih]
    | some v => simp [hp, List.filter_cons, ih]

/-! ### Message-count lemmas -/

theorem serverCount_go (lines : List Record) (n : Nat) :
    lines.foldl (fun n e => if isUA e then n + 1 else n) n
      = n + (lines.filter isUA).length := by
  induction lines generalizing n with
  | nil => simp
  | cons r rs ih =>
    by_cases h : isUA r <;> simp [h, List.filter_cons, ih] <;> omega

theorem isUA_eq_decide (r : Record) :
    isUA r = decide (r.rtype = some "user" ∨ r.rtype = some "assistant") := by
  by_cases h1 : r.rtype = some "user" <;>
    by_cases h2 : r.rtype = some "assistant" <;>
      simp [isUA, h1, h2]

/-! ### Top-N truncation lemma -/

theorem take_sorted_topN {α : Type} (r : α → α → Prop) [DecidableRel r]
    [IsTotal α r] [IsTrans α r] (n : Nat) (l : List α) :
    ((l.insertionSort r).take n).length ≤ n
    ∧ List.Sorted r ((l.insertionSort r).take n)
    ∧ ∀ x ∈ (l.insertionSort r).take n, ∀ y ∈ l,
        y ∈ (l.insertionSort r).take n ∨ r x y := by
  refine ⟨List.length_take_le n _, ?_, ?_⟩
  · exact List.Pairwise.sublist (List.take_sublist n _)
      (List.sorted_insertionSort r l)
  · intro x hx y hy
    have hy' : y ∈ l.insertionSort r := (List.mem_insertionSort r).mpr hy
    rw [← List.take_append_drop n (l.insertionSort r)] at hy'
    rcases List.mem_append.mp hy' with h | h
    · exact Or.inl h
    · right
      have hs := List.sorted_insertionSort r l
      rw [← List.take_append_drop n (l.insertionSort r)] at hs
      exact (List.pairwise_append.mp hs).2.2 x hx y h

/-! ## Claim theorems -/

/-- Claim C1: for every session file of well-formed records, the message
count aggregated for that file equals the number of records whose type
field is "user" or "assistant"; records of any other type, or with the
type absent, contribute nothing.  This holds for the per-session counter
of `processSession` and for the per-session fold of the server and the
sanitized generator, and the counting test is exactly the stated
disjunction. -/
theorem claim1_message_count (cutoff : Int) (lines : List Record)
    (g : GState) :
    (processSession cutoff lines g).2.sessionMessages
        = (lines.filter isUA).length
    ∧ serverCountMessages lines = (lines.filter isUA).length
    ∧ lines.filter isUA
        = lines.filter
            (fun r => decide (r.rtype = some "user" ∨ r.rtype = some "assistant")) := by
  refine ⟨?_, ?_, ?_⟩
  · have h := foldl_messages cutoff lines (g, initAcc)
    simpa [processSession, initAcc] using h
  · have h := serverCount_go lines 0
    simpa [serverCountMessages] using h
  · exact List.filter_congr (fun r _ => isUA_eq_decide r)

/-- Claim C2 (amended): after seeding the hourly buckets from the cache and
aggregating all session files, the sum of the 24 hourly buckets equals the
seeded sum plus the number of in-window timestamped records, and the sum
of the 7 weekday buckets equals exactly that record count; with an empty
cache the hourly sum also equals the record count.  Records without a
timestamp, or before the window, are counted in neither set of buckets. -/
theorem claim2_bucket_sums (cutoff : Int) (cache : List (Fin 24 × Nat))
    (sessions : List (List Record)) :
    sumHourly (runScan cutoff sessions (scanInit cache)).hourlyActivity
        = sumHourly (scanInit cache).hourlyActivity
          + totalInWindow cutoff sessions
    ∧ sumWeekday (runScan cutoff sessions (scanInit cache)).weekdayActivity
        = totalInWindow cutoff sessions
    ∧ sumHourly (runScan cutoff sessions (scanInit [])).hourlyActivity
        = totalInWindow cutoff sessions := by
  refine ⟨runScan_hourlySum cutoff sessions (scanInit cache), ?_, ?_⟩
  · rw [runScan_weekdaySum]
    have hz : sumWeekday (scanInit cache).weekdayActivity = 0 := by
      simp [scanInit, initGState, sumWeekday]
    omega
  · rw [runScan_hourlySum]
    have hz : sumHourly (scanInit []).hourlyActivity = 0 := by
      simp [scanInit, seedHourly, initGState, sumHourly]
    omega

/-- Claim C2, counterexample to the claim as stated: with the cache seeding
hour 0 to count 5 (src/unnamed/part_000 lines 136-141 assign cached counts
into the very buckets the scan then increments), one session file with one
in-window timestamped record yields an hourly-bucket sum of 6, while the
number of in-window timestamped records is 1 — so the stated equality of
the hourly sum with that count fails. -/
theorem claim2_counterexample :
    sumHourly (runScan 0 [[tsOnlyRecord]] (scanInit hourSeedCache)).hourlyActivity = 6
    ∧ totalInWindow 0 [[tsOnlyRecord]] = 1
    ∧ (6 : Nat) ≠ 1 := by
  refine ⟨?_, ?_, by omega⟩
  · decide
  · decide

/-- Claim C4 (amended): the batch-mode parser `parseJsonl` returns exactly
the JSON values of the non-blank lines that parse successfully, in file
order, and an unreadable file yields the empty sequence; the server-mode
parser `parseJSONL` additionally discards every successfully parsed line
whose JSON value is falsy (`null`, `false`, `0` or `""`), because its
final `.filter(Boolean)` cannot distinguish such values from parse
failures. -/
theorem claim4_line_parsing (file : Option (List RawLine)) :
    parseJsonl file = specLineParse file
    ∧ parseJSONL file = (specLineParse file).filter Json.truthy
    ∧ parseJsonl none = [] ∧ parseJSONL none = [] := by
  refine ⟨?_, ?_, rfl, rfl⟩
  · cases file with
    | none => rfl
    | some ls =>
      have h := parseJsonl_go ls []
      simpa [parseJsonl, specLineParse] using h
  · cases file with
    | none => rfl
    | some ls =>
      have h := mapGetD_filter (ls.filter (fun l => l.nonBlank))
      simpa [parseJSONL, specLineParse] using h

/-- Claim C4, counterexample to the claim as stated: a readable file whose
single non-blank line parses successfully to the JSON number 0 makes the
server-mode parser return the empty sequence, not the sequence holding
that value — `.filter(Boolean)` drops the falsy parsed value. -/
theorem claim4_counterexample :
    parseJSONL (some [⟨true, some (Json.num 0)⟩]) = []
    ∧ specLineParse (some [⟨true, some (Json.num 0)⟩]) = [Json.num 0]
    ∧ ([] : List Json) ≠ [Json.num 0] := by
  refine ⟨rfl, rfl, fun h => List.noConfusion h⟩

/-- Claim C5: for every session file, the sum over tool names of the
per-tool counts attributed from the tool_use content blocks of that file
(the growth of the global `toolCounts` object) equals the total tool-call
count recorded for that file, and both equal the number of tool_use blocks
of the assistant records of the file. -/
theorem claim5_tool_totals (cutoff : Int) (lines : List Record)
    (g : GState) :
    mapSum (processSession cutoff lines g).1.toolCounts
        = mapSum g.toolCounts
          + (processSession cutoff lines g).2.sessionToolCalls
    ∧ (processSession cutoff lines g).2.sessionToolCalls
        = (lines.map toolBlocksOf).sum := by
  have h1 := foldl_toolSum cutoff lines (g, initAcc)
  have h2 := foldl_toolCalls cutoff lines (g, initAcc)
  constructor
  · simp only [processSession]
    simp only [processSession] at h1 h2 ⊢
    rw [h1, h2]
    simp [initAcc]
  · simpa [processSession, initAcc] using h2

/-- Claim C3 (amended): in the comprehensive generator the estimated cost
of a model display name is the four-category sum of tokens over one
million times the per-million rate, with the Opus table row for names
containing "Opus" (each of whose rates strictly exceeds the default rates)
and the default table row for every other name — in particular for every
name absent from the table; the sanitized generator, however, sums only
the input, output and cache-read categories, omitting cache-write
entirely. -/
theorem claim3_cost (name model : String) (u : TokenUsage)
    (cu : CacheUsage) :
    (jsIncludes name "Opus" = true →
        modelCost name u
          = specFourCategoryCost opusRates u.inputTokens u.outputTokens
              u.cacheRead u.cacheWrite)
    ∧ (jsIncludes name "Opus" = false →
        modelCost name u
          = specFourCategoryCost defaultRates u.inputTokens u.outputTokens
              u.cacheRead u.cacheWrite)
    ∧ ((∀ p ∈ PRICING, p.1 ≠ name) → jsIncludes name "Opus" = false →
        modelCost name u
          = specFourCategoryCost defaultRates u.inputTokens u.outputTokens
              u.cacheRead u.cacheWrite)
    ∧ (defaultRates.inputRate < opusRates.inputRate
        ∧ defaultRates.outputRate < opusRates.outputRate
        ∧ defaultRates.cacheReadRate < opusRates.cacheReadRate
        ∧ defaultRates.cacheWriteRate < opusRates.cacheWriteRate)
    ∧ sanitizedCost model cu
        = specThreeCategoryCost
            (if jsIncludes model "opus" then opusRates else defaultRates)
            cu.inputTokens cu.outputTokens cu.cacheReadInputTokens := by
  refine ⟨?_, ?_, ?_, ?_, ?_⟩
  · intro h
    simp [modelCost, priceRow, h, specFourCategoryCost]
  · intro h
    simp [modelCost, priceRow, h, specFourCategoryCost]
  · intro _ h
    simp [modelCost, priceRow, h, specFourCategoryCost]
  · refine ⟨?_, ?_, ?_, ?_⟩ <;> norm_num [defaultRates, opusRates]
  · by_cases h : jsIncludes model "opus" <;>
      simp [sanitizedCost, specThreeCategoryCost, h, opusRates, defaultRates]

/-- Claim C3, witness: the amended theorem evaluated at the Opus display
name with one million input tokens, and at the raw Opus model id with one
million cache-write tokens. -/
theorem claim3_witness :
    modelCost "Claude Opus 4.5" ⟨1000000, 0, 0, 0⟩
        = specFourCategoryCost opusRates 1000000 0 0 0
    ∧ sanitizedCost "claude-opus-4-5-20251101" ⟨0, 0, 0, 1000000⟩
        = specThreeCategoryCost
            (if jsIncludes "claude-opus-4-5-20251101" "opus" then opusRates
             else defaultRates) 0 0 0 := by
  have h := claim3_cost "Claude Opus 4.5" "claude-opus-4-5-20251101"
    ⟨1000000, 0, 0, 0⟩ ⟨0, 0, 0, 1000000⟩
  exact ⟨h.1 (by decide), h.2.2.2.2⟩

/-- Claim C3, counterexample to the claim as stated: for the Opus model id
with one million cache-creation tokens and no other tokens, the cost
computed by the sanitized generator (src/generate-data.js lines 75-83) is
0, while the stated four-category sum at the Opus rates is 18.75 — the
cache-write category is simply missing from that computation. -/
theorem claim3_counterexample :
    sanitizedCost "claude-opus-4-5-20251101" ⟨0, 0, 0, 1000000⟩ = 0
    ∧ specFourCategoryCost opusRates 0 0 0 1000000 = 75 / 4
    ∧ (0 : ℚ) ≠ 75 / 4 := by
  refine ⟨?_, ?_, by norm_num⟩
  · simp [sanitizedCost]
  · norm_num [specFourCategoryCost, opusRates]

/-- Claim C6: the tool-usage artifact holds at most 20 entries, the
git-branches artifact at most 15 and the projects list at most 10; each is
ordered by non-increasing count (session count for projects), and every
included entry has a count at least that of every entry of the underlying
mapping that was left out. -/
theorem claim6_topN (tc bc : List (String × Nat)) (ps : List ProjectStats) :
    ((topTools tc).length ≤ 20
      ∧ List.Sorted (geBy Prod.snd) (topTools tc)
      ∧ ∀ x ∈ topTools tc, ∀ y ∈ tc, y ∈ topTools tc ∨ y.2 ≤ x.2)
    ∧ ((topBranches bc).length ≤ 15
      ∧ List.Sorted (geBy Prod.snd) (topBranches bc)
      ∧ ∀ x ∈ topBranches bc, ∀ y ∈ bc, y ∈ topBranches bc ∨ y.2 ≤ x.2)
    ∧ ((topProjects ps).length ≤ 10
      ∧ List.Sorted (geBy ProjectOut.sessions) (topProjects ps)
      ∧ ∀ x ∈ topProjects ps, ∀ y ∈ ps.map projectOut,
          y ∈ topProjects ps ∨ y.sessions ≤ x.sessions) := by
  obtain ⟨t1, t2, t3⟩ := take_sorted_topN (geBy Prod.snd) 20 tc
  obtain ⟨b1, b2, b3⟩ := take_sorted_topN (geBy Prod.snd) 15 bc
  obtain ⟨p1, p2, p3⟩ := take_sorted_topN (geBy ProjectOut.sessions) 10
    ((ps.map projectOut).filter (fun p => decide (0 < p.sessions)))
  refine ⟨⟨t1, t2, t3⟩, ⟨b1, b2, b3⟩, ⟨p1, p2, ?_⟩⟩
  intro x hx y hy
  by_cases hy0 : y.sessions = 0
  · right
    omega
  · have hyf : y ∈ (ps.map projectOut).filter
        (fun p => decide (0 < p.sessions)) := by
      refine List.mem_filter.mpr ⟨hy, ?_⟩
      simp
      omega
    exact p3 x hx y hyf

/-- Claim C6, witness: the theorem evaluated at a concrete two-entry tool
counter, giving the length bound and the included-or-dominated fact for
the smaller entry against the larger one. -/
theorem claim6_witness :
    (topTools [("Read", 5), ("Bash", 9)]).length ≤ 20
    ∧ (("Read", 5) ∈ topTools [("Read", 5), ("Bash", 9)]
        ∨ ((("Read", 5) : String × Nat)).2 ≤ ((("Bash", 9) : String × Nat)).2) := by
  have h := claim6_topN [("Read", 5), ("Bash", 9)] [] []
  exact ⟨h.1.1, h.1.2.2 ("Bash", 9) (by decide) ("Read", 5) (by decide)⟩

/-- Claim C7: for every record carrying a (truthy) model identifier, the
identifier is classified by substring match — "opus" to the Opus display
name, otherwise "sonnet" to the Sonnet display name, otherwise passed
through unchanged — and the per-model `sessions` counter of that display
name is incremented. -/
theorem claim7_classification (cutoff : Int) (st : GState × SessionAcc)
    (r : Record) (mo : String) (hm : r.modelField = some mo)
    (hne : mo.isEmpty = false) :
    (processLine cutoff st r).1.modelUsage
        = bumpSessions st.1.modelUsage (classify mo)
    ∧ (jsIncludes mo "opus" = true → classify mo = "Claude Opus 4.5")
    ∧ (jsIncludes mo "opus" = false → jsIncludes mo "sonnet" = true →
        classify mo = "Claude Sonnet 4.5")
    ∧ (jsIncludes mo "opus" = false → jsIncludes mo "sonnet" = false →
        classify mo = mo)
    ∧ sessionsOf (bumpSessions st.1.modelUsage (classify mo)) (classify mo)
        = sessionsOf st.1.modelUsage (classify mo) + 1 := by
  refine ⟨processLine_modelFound cutoff st r mo hm hne, ?_, ?_, ?_,
    sessionsOf_bumpSessions _ _⟩
  · intro h
    simp [classify, h]
  · intro h1 h2
    simp [classify, h1, h2]
  · intro h1 h2
    simp [classify, h1, h2]

/-- Claim C7, witness: the theorem evaluated at a record carrying the model
identifier "claude-opus-4-5" against the fresh state. -/
theorem claim7_witness :
    (processLine 0 (initGState, initAcc) opusModelRecord).1.modelUsage
        = bumpSessions initGState.modelUsage (classify "claude-opus-4-5")
    ∧ classify "claude-opus-4-5" = "Claude Opus 4.5" := by
  have h := claim7_classification 0 (initGState, initAcc) opusModelRecord
    "claude-opus-4-5" rfl rfl
  exact ⟨h.1, h.2.1 (by decide)⟩

/-- Claim C8 (amended): every handler wraps its body so that any thrown
read or parse error becomes a 500 response with a structured JSON error
body — as the stats handler shows for a failing cache read; the
session-detail handler, however, answers a missing session with status 404
(still a structured JSON error body), and a session file that exists but
cannot be read is served as an empty entry list with status 200, because
the tolerant line parser swallows the read failure. -/
theorem claim8_error_responses (msg e err : String) (fs : SessionDirFS)
    (project sid : String) :
    (tryHandler msg (Except.error e) = ⟨500, errBody msg e⟩
      ∧ is5xx 500 = true ∧ isErrorBody (errBody msg e) = true)
    ∧ statsHandler (Except.error err)
        = ⟨500, errBody "Failed to read stats" err⟩
    ∧ (fs.pathExists (sessionFilePath project sid) = false →
        fs.pathExists (agentFilePath project sid) = false →
        sessionHandler fs project sid
            = ⟨404, Json.obj [("error", Json.str "Session not found")]⟩
        ∧ isErrorBody (sessionHandler fs project sid).body = true)
    ∧ (fs.pathExists (sessionFilePath project sid) = true →
        fs.readLines (sessionFilePath project sid) = none →
        sessionHandler fs project sid = ⟨200, Json.arr []⟩) := by
  refine ⟨⟨rfl, rfl, rfl⟩, rfl, ?_, ?_⟩
  · intro h1 h2
    have heq : sessionHandler fs project sid
        = ⟨404, Json.obj [("error", Json.str "Session not found")]⟩ := by
      simp [sessionHandler, h1, h2]
    exact ⟨heq, by rw [heq]; rfl⟩
  · intro h1 h2
    simp [sessionHandler, h1, h2, parseJSONL]

/-- Claim C8, witness: the amended theorem evaluated at a failing cache
read and at the empty filesystem. -/
theorem claim8_witness :
    statsHandler (Except.error "ENOENT")
        = ⟨500, errBody "Failed to read stats" "ENOENT"⟩
    ∧ sessionHandler emptyFS "proj" "abc"
        = ⟨404, Json.obj [("error", Json.str "Session not found")]⟩ := by
  have h := claim8_error_responses "m" "e" "ENOENT" emptyFS "proj" "abc"
  exact ⟨h.2.1, (h.2.2.1 rfl rfl).1⟩

/-- Claim C8, counterexample to the claim as stated: when neither the
primary session file nor the agent fallback exists — a failure to read the
underlying files — the session-detail handler answers with status 404,
which is not a server-fault (5xx) status, contradicting the stated
universal 5xx guarantee. -/
theorem claim8_counterexample :
    (sessionHandler emptyFS "proj" "abcdefghij").status = 404
    ∧ is5xx (sessionHandler emptyFS "proj" "abcdefghij").status = false
    ∧ isErrorBody (sessionHandler emptyFS "proj" "abcdefghij").body = true :=
  ⟨rfl, rfl, rfl⟩

/-- Claim C9 (amended): per session, the global branch-frequency counter is
incremented exactly once when some record of the session carries a truthy
(non-empty) gitBranch — namely for the first truthy branch in file order —
and later records with a gitBranch, even a different one, cause no further
increment; a session whose records carry no truthy gitBranch (no field at
all, or only the falsy empty string) contributes nothing. -/
theorem claim9_branch (cutoff : Int) (lines : List Record) (g : GState) :
    (firstTruthyBranch lines = none →
        (processSession cutoff lines g).1.branchCounts = g.branchCounts
        ∧ (processSession cutoff lines g).2.branch = none)
    ∧ ∀ b, firstTruthyBranch lines = some b →
        (processSession cutoff lines g).1.branchCounts
            = bump g.branchCounts b
        ∧ mapSum (bump g.branchCounts b) = mapSum g.branchCounts + 1
        ∧ (processSession cutoff lines g).2.branch = some b := by
  have h := foldl_branch_from_none cutoff lines (g, initAcc) rfl
  exact ⟨h.1, fun b hb =>
    ⟨(h.2 b hb).1, mapSum_bump g.branchCounts b, (h.2 b hb).2⟩⟩

/-- Claim C9, witness: the amended theorem evaluated at a session whose
single record carries the truthy branch "main". -/
theorem claim9_witness :
    (processSession 0 [mainBranchRecord] initGState).1.branchCounts
        = bump initGState.branchCounts "main"
    ∧ mapSum (bump initGState.branchCounts "main")
        = mapSum initGState.branchCounts + 1
    ∧ (processSession 0 [mainBranchRecord] initGState).2.branch
        = some "main" := by
  exact (claim9_branch 0 [mainBranchRecord] initGState).2 "main" rfl

/-- Claim C9, counterexample to the claim as stated: a session whose single
record carries a gitBranch field holding the empty string — a record that
does carry the field — leaves the branch counter untouched, because the JS
truthiness test `line.gitBranch && !branch` rejects the empty string; the
stated "incremented exactly once" (which would change the counter sum)
fails. -/
theorem claim9_counterexample :
    (processSession 0 [emptyBranchRecord] initGState).1.branchCounts
        = initGState.branchCounts
    ∧ emptyBranchRecord.gitBranch ≠ none
    ∧ mapSum initGState.branchCounts + 1 ≠ mapSum initGState.branchCounts := by
  refine ⟨rfl, ?_, by simp⟩
  simp [emptyBranchRecord]

/-- Claim C10: when the primary file `sessionId.jsonl` is absent, the
session-detail handler consults exactly the file named `agent-` followed
by the first 8 characters of the session id plus `.jsonl`, serving its
parsed entries when it exists and a 404 JSON error when it does not; the
fallback filename is a function of at most the first 8 characters of the
session id, so no filename built from more of the id is ever consulted. -/
theorem claim10_fallback (fs : SessionDirFS) (project sid : String) :
    (fs.pathExists (sessionFilePath project sid) = false →
      fs.pathExists (agentFilePath project sid) = false →
      sessionHandler fs project sid
          = ⟨404, Json.obj [("error", Json.str "Session not found")]⟩)
    ∧ (fs.pathExists (sessionFilePath project sid) = false →
      fs.pathExists (agentFilePath project sid) = true →
      sessionHandler fs project sid
          = ⟨200, Json.arr (parseJSONL
              (fs.readLines (agentFilePath project sid)))⟩)
    ∧ agentFilePath project sid
        = project ++ "/agent-" ++ strTake sid 8 ++ ".jsonl"
    ∧ agentFilePath project sid = agentFilePath project (strTake sid 8)
    ∧ (strTake sid 8).length ≤ 8 := by
  refine ⟨?_, ?_, rfl, ?_, ?_⟩
  · intro h1 h2
    simp [sessionHandler, h1, h2]
  · intro h1 h2
    simp [sessionHandler, h1, h2]
  · unfold agentFilePath strTake
    congr 2
    simp [List.take_take]
  · have h : (strTake sid 8).length = (sid.data.take 8).length := rfl
    rw [h]
    exact List.length_take_le 8 sid.data

/-- Claim C10, witness: the theorem evaluated against a filesystem holding
only the agent file for the first 8 characters "abcdefgh" of the session
id "abcdefgh-1234". -/
theorem claim10_witness :
    agentFS.pathExists (sessionFilePath "proj" "abcdefgh-1234") = false
    ∧ agentFS.pathExists (agentFilePath "proj" "abcdefgh-1234") = true
    ∧ sessionHandler agentFS "proj" "abcdefgh-1234"
        = ⟨200, Json.arr (parseJSONL
            (agentFS.readLines (agentFilePath "proj" "abcdefgh-1234")))⟩ := by
  have h1 : agentFS.pathExists (sessionFilePath "proj" "abcdefgh-1234")
      = false := by decide
  have h2 : agentFS.pathExists (agentFilePath "proj" "abcdefgh-1234")
      = true := by decide
  exact ⟨h1, h2,
    (claim10_fallback agentFS "proj" "abcdefgh-1234").2.1 h1 h2⟩

end ClaudeDash
